import Mathlib

/-!
# Verification of the tts-eval analysis core

Shallow embedding of the statistics / aggregation / report-composition code of
`scripts/analyze_latency.py`, `scripts/analyze_performance.py` and
`scripts/generate_report.py`, over exact rationals (Python floats are modelled
by `ℚ`, the one square root by `Real.sqrt`).
-/

namespace TTSEval

/-! ## Statistics engine (`LatencyAnalyzer.compute_statistics` and helpers) -/

/-- `statistics.mean(values)`: arithmetic mean `sum/n` (callers guarantee a
non-empty sample). -/
def mean (values : List ℚ) : ℚ := values.sum / (values.length : ℚ)

/-- Python `sorted(values)`: ascending stable sort of the sample. -/
def pySorted (values : List ℚ) : List ℚ := values.insertionSort (· ≤ ·)

/-- `statistics.median(values)`: middle element of the sorted sample for odd
length, mean of the two middle elements for even length. -/
def median (values : List ℚ) : ℚ :=
  let d := pySorted values
  let n := values.length
  if n % 2 = 1 then d.getD (n / 2) 0
  else (d.getD (n / 2 - 1) 0 + d.getD (n / 2) 0) / 2

/-- Sample variance with `n-1` denominator: the square of `statistics.stdev`
(which callers only invoke on samples of at least two values). -/
def sampleVariance (values : List ℚ) : ℚ :=
  let m := mean values
  (values.map (fun x => (x - m) ^ 2)).sum / ((values.length : ℚ) - 1)

/-- `statistics.stdev(values)`: square root of the sample variance. -/
noncomputable def stdev (values : List ℚ) : ℝ := Real.sqrt (sampleVariance values)

/-- `statistics.quantiles(data, n=n)` with CPython's default
`method="exclusive"`: cut point `i` (for `i = 1..n-1`) interpolates between the
sorted values bracketing rank `i*(ld+1)/n`, with the upper bracketing index
clamped to `[1, ld-1]` and `delta` computed in exact integer arithmetic.
Callers in this repository only reach it with `ld ≥ 4` (CPython raises below
`ld = 2`). -/
def quantiles (data : List ℚ) (n : ℕ) : List ℚ :=
  let d := pySorted data
  let ld := d.length
  let m := ld + 1
  (List.range (n - 1)).map (fun i0 =>
    let i := i0 + 1
    let j := min (max (i * m / n) 1) (ld - 1)
    let delta : ℤ := (i * m : ℤ) - (j * n : ℤ)
    ((d.getD (j - 1) 0) * ((n : ℚ) - (delta : ℚ)) + (d.getD j 0) * (delta : ℚ)) / (n : ℚ))

/-- Python `min(values)` over a non-empty list (left fold of binary min). -/
def pyMin : List ℚ → ℚ
  | [] => 0
  | x :: xs => xs.foldl Min.min x

/-- Python `max(values)` over a non-empty list (left fold of binary max). -/
def pyMax : List ℚ → ℚ
  | [] => 0
  | x :: xs => xs.foldl Max.max x

/-- The dictionary returned by `LatencyAnalyzer.compute_statistics` for a
non-empty sample.  `p25`/`p75` hold `none` where the Python code stores
`None`. -/
structure Stats where
  count : ℕ
  mean : ℚ
  median : ℚ
  stdev : ℝ
  min : ℚ
  max : ℚ
  p25 : Option ℚ
  p75 : Option ℚ

/-- `LatencyAnalyzer.compute_statistics`: `{}` (modelled as `none`) on an empty
sample, otherwise the eight summary fields; `stdev` is `0` for a single
observation, and `p25`/`p75` are `None` below four observations. -/
noncomputable def compute_statistics (values : List ℚ) : Option Stats :=
  if values = [] then none
  else some {
    count := values.length
    mean := mean values
    median := median values
    stdev := if values.length > 1 then stdev values else 0
    min := pyMin values
    max := pyMax values
    p25 := if 4 ≤ values.length then some ((quantiles values 4).getD 0 0) else none
    p75 := if 4 ≤ values.length then some ((quantiles values 4).getD 2 0) else none }

/-- `pearson_correlation(data)` (identical in `analyze_latency.py` and
`generate_report.py`): `0` for fewer than two pairs or a degenerate
denominator, otherwise the centred cross-sum divided by the square root of the
product of the centred square sums (`(dx*dy) ** 0.5`). -/
noncomputable def pearson_correlation (data : List (ℚ × ℚ)) : ℝ :=
  if data.length < 2 then 0
  else
    let x_values := data.map Prod.fst
    let y_values := data.map Prod.snd
    let mean_x := mean x_values
    let mean_y := mean y_values
    let numerator : ℚ := (data.map (fun p => (p.1 - mean_x) * (p.2 - mean_y))).sum
    let denominator_x : ℚ := (x_values.map (fun x => (x - mean_x) ^ 2)).sum
    let denominator_y : ℚ := (y_values.map (fun y => (y - mean_y) ^ 2)).sum
    if denominator_x = 0 ∨ denominator_y = 0 then 0
    else (numerator : ℝ) / Real.sqrt ((denominator_x : ℝ) * (denominator_y : ℝ))

/-! ## Record normalizer (`LatencyAnalyzer.extract_latency_data`) -/

/-- One generation-log entry (the fields `extract_latency_data` reads);
`none` models an absent key. -/
structure LogEntry where
  test_id : String
  status : String
  ttfb : Option ℚ
  total_time : Option ℚ
  generation_time : Option ℚ

/-- Python `a or b` on two optional numbers, as in
`entry.get("ttfb") or entry.get("generation_time")`: the left value when it is
present and truthy (nonzero), otherwise the right one. -/
def pyOr (a b : Option ℚ) : Option ℚ :=
  match a with
  | some v => if v = 0 then b else some v
  | none => b

/-- Python truthiness of an optional number (`if ttfb:`): true exactly for a
present nonzero value. -/
def truthy : Option ℚ → Bool
  | some v => v ≠ 0
  | none => false

/-- The spec's resolution rule, literally by key presence:
`entry.ttfb if present else entry.generation_time`. -/
def specResolvedTtfb (e : LogEntry) : Option ℚ :=
  e.ttfb.orElse fun _ => e.generation_time

/-- The spec's resolution rule for total time:
`entry.total_time if present else entry.generation_time`. -/
def specResolvedTotal (e : LogEntry) : Option ℚ :=
  e.total_time.orElse fun _ => e.generation_time

/-- The per-provider loop body of `LatencyAnalyzer.extract_latency_data`
(lines 48-57): for each success entry resolve `ttfb` and `total_time` with
Python `or`-fallback to `generation_time`, and append each to its sample when
truthy.  Returns the pair (latency_data, total_time_data) for one provider. -/
def extract_latency_data (entries : List LogEntry) : List ℚ × List ℚ :=
  entries.foldl (fun acc e =>
    if e.status = "success" then
      let ttfb := pyOr e.ttfb e.generation_time
      let total_time := pyOr e.total_time e.generation_time
      ((if truthy ttfb then acc.1 ++ [ttfb.getD 0] else acc.1),
       (if truthy total_time then acc.2 ++ [total_time.getD 0] else acc.2))
    else acc) ([], [])

/-! ## Aggregator: wins tallies and category winner
(`PerformanceAnalyzer.category_breakdown`, also `generate_report.py`
lines 301-324) -/

/-- The three values the evaluations file stores under `comparison.winner`
(`"Cartesia"`, `"Eleven Labs"`, `"Tie"`). -/
inductive PyWinner where
  | cartesia
  | elevenLabs
  | tie
deriving DecidableEq

/-- The slice of an `EvaluationRecord` the category breakdown reads:
`category`, the two `average_score` values, and `comparison.winner`. -/
structure Evaluation where
  category : String
  cartesiaAvg : ℚ
  elevenAvg : ℚ
  winner : PyWinner

/-- The `wins[...] += 1` tallying loop over a group of evaluations, as a fold:
(Cartesia wins, Eleven Labs wins, ties). -/
def tallyWins (evals : List Evaluation) : ℕ × ℕ × ℕ :=
  evals.foldl (fun w e =>
    match e.winner with
    | .cartesia => (w.1 + 1, w.2.1, w.2.2)
    | .elevenLabs => (w.1, w.2.1 + 1, w.2.2)
    | .tie => (w.1, w.2.1, w.2.2 + 1)) (0, 0, 0)

/-- The category-winner rule of `category_breakdown` (lines 152-159; the same
rule is at `generate_report.py` lines 314-320): head-to-head win counts, never
the mean scores. -/
def category_winner (evals : List Evaluation) : PyWinner :=
  let wins := tallyWins evals
  if wins.1 > wins.2.1 then .cartesia
  else if wins.2.1 > wins.1 then .elevenLabs
  else .tie

/-- A concrete category group in which Cartesia has the higher mean
`average_score` but ElevenLabs holds the win-tally majority. -/
def divergentCategory : List Evaluation :=
  [⟨"numbers_dates", 5, 1, .elevenLabs⟩,
   ⟨"numbers_dates", 5, 1, .elevenLabs⟩,
   ⟨"numbers_dates", 5, 4, .cartesia⟩]

/-! ## Consistency verdicts (coefficient of variation comparisons) -/

/-- The three consistency verdicts the scripts print. -/
inductive ConsistencyCall where
  | cartesiaMore
  | elevenMore
  | similar
deriving DecidableEq

/-- `LatencyAnalyzer.compare_latency` lines 141-148 (and the identical rule at
`generate_report.py` line 103): `"Cartesia" if cart_cv < elev_cv else
"ElevenLabs"` — no threshold, no similarity band. -/
def compare_latency_consistency (cart_cv elev_cv : ℚ) : ConsistencyCall :=
  if cart_cv < elev_cv then .cartesiaMore else .elevenMore

/-- `LatencyAnalyzer.generate_summary` lines 344-349: a provider is called more
consistent only when its CV is below 0.9 times the other's, otherwise the two
are called similar. -/
def generate_summary_consistency (cart_cv elev_cv : ℚ) : ConsistencyCall :=
  if cart_cv < elev_cv * (9 / 10) then .cartesiaMore
  else if elev_cv < cart_cv * (9 / 10) then .elevenMore
  else .similar

/-! ## Error propagation (`LatencyAnalyzer.load_data`,
`PerformanceAnalyzer.overall_comparison`) -/

/-- The generation-log loading loop of `LatencyAnalyzer.load_data`
(lines 29-32).  Each file is opened and parsed with no `try`/`except`, so the
loop is the `Except` fold that stops at the first unreadable or invalid file:
`α` stands for one parsed log document and `Except.error` for a raised
`OSError`/`JSONDecodeError`. -/
def load_generation_logs {α : Type} (files : List (Except String α)) :
    Except String (List α) :=
  files.foldlM (fun logs f => do
    let log ← f
    pure (logs ++ [log])) []

/-- The head-to-head tallying loop of `PerformanceAnalyzer.overall_comparison`
(lines 73-77): `wins[winner] += 1` on the three-key dict raises `KeyError`
for any other winner string. -/
def overall_wins (winners : List String) : Except String (ℕ × ℕ × ℕ) :=
  winners.foldlM (fun w winner =>
    if winner = "Cartesia" then pure (w.1 + 1, w.2.1, w.2.2)
    else if winner = "Eleven Labs" then pure (w.1, w.2.1 + 1, w.2.2)
    else if winner = "Tie" then pure (w.1, w.2.1, w.2.2 + 1)
    else Except.error ("KeyError: " ++ winner)) (0, 0, 0)

/-! ## Report composer header (`generate_markdown_report` lines 26-32) -/

/-- The header block `generate_markdown_report` builds first: `now` stands for
`datetime.now().strftime('%Y-%m-%d %H:%M:%S')` — the function's one clock
access — and `totalEvaluations` for `len(performance_analyzer.evaluations)`. -/
def report_header (now : String) (totalEvaluations : ℕ) : List String :=
  ["# TTS Evaluation Analysis: Cartesia Sonic 3 vs ElevenLabs Flash v2.5",
   "\n**Generated:** " ++ now,
   "\n**Total Evaluations:** " ++ toString totalEvaluations,
   "\n---\n"]

/-! ## Supporting lemmas -/

theorem foldl_min_le_init (xs : List ℚ) (a : ℚ) : xs.foldl Min.min a ≤ a := by
  induction xs generalizing a with
  | nil => simp
  | cons x xs ih => exact le_trans (ih (min a x)) (min_le_left a x)

theorem foldl_min_le_mem {y : ℚ} {xs : List ℚ} (a : ℚ) (hy : y ∈ xs) :
    xs.foldl Min.min a ≤ y := by
  induction xs generalizing a with
  | nil => cases hy
  | cons x xs ih =>
    rcases List.mem_cons.mp hy with h | h
    · subst h
      exact le_trans (foldl_min_le_init xs (min a y)) (min_le_right a y)
    · exact ih _ h

theorem init_le_foldl_max (xs : List ℚ) (a : ℚ) : a ≤ xs.foldl Max.max a := by
  induction xs generalizing a with
  | nil => simp
  | cons x xs ih => exact le_trans (le_max_left a x) (ih (max a x))

theorem mem_le_foldl_max {y : ℚ} {xs : List ℚ} (a : ℚ) (hy : y ∈ xs) :
    y ≤ xs.foldl Max.max a := by
  induction xs generalizing a with
  | nil => cases hy
  | cons x xs ih =>
    rcases List.mem_cons.mp hy with h | h
    · subst h
      exact le_trans (le_max_right a y) (init_le_foldl_max xs (max a y))
    · exact ih _ h

theorem pyMin_le_of_mem {y : ℚ} {l : List ℚ} (hy : y ∈ l) : pyMin l ≤ y := by
  cases l with
  | nil => cases hy
  | cons x xs =>
    rcases List.mem_cons.mp hy with h | h
    · subst h; exact foldl_min_le_init xs y
    · exact foldl_min_le_mem x h

theorem le_pyMax_of_mem {y : ℚ} {l : List ℚ} (hy : y ∈ l) : y ≤ pyMax l := by
  cases l with
  | nil => cases hy
  | cons x xs =>
    rcases List.mem_cons.mp hy with h | h
    · subst h; exact init_le_foldl_max xs y
    · exact mem_le_foldl_max x h

theorem pySorted_perm (l : List ℚ) : (pySorted l).Perm l :=
  List.perm_insertionSort _ l

theorem pySorted_length (l : List ℚ) : (pySorted l).length = l.length :=
  (pySorted_perm l).length_eq

theorem pySorted_getD_mem (l : List ℚ) {i : ℕ} (h : i < l.length) :
    (pySorted l).getD i 0 ∈ l := by
  have h' : i < (pySorted l).length := by rw [pySorted_length]; exact h
  rw [List.getD_eq_getElem _ _ h']
  exact (pySorted_perm l).mem_iff.mp (List.getElem_mem h')

theorem median_bounds {l : List ℚ} (h : l ≠ []) :
    pyMin l ≤ median l ∧ median l ≤ pyMax l := by
  have hn : 0 < l.length := List.length_pos.mpr h
  unfold median
  dsimp only
  split_ifs with hodd
  · have hi : l.length / 2 < l.length := Nat.div_lt_self hn one_lt_two
    exact ⟨pyMin_le_of_mem (pySorted_getD_mem l hi), le_pyMax_of_mem (pySorted_getD_mem l hi)⟩
  · have hi2 : l.length / 2 < l.length := Nat.div_lt_self hn one_lt_two
    have hi1 : l.length / 2 - 1 < l.length := lt_of_le_of_lt (Nat.sub_le _ _) hi2
    have hb1 := pyMin_le_of_mem (pySorted_getD_mem l hi1)
    have hb2 := pyMin_le_of_mem (pySorted_getD_mem l hi2)
    have hc1 := le_pyMax_of_mem (pySorted_getD_mem l hi1)
    have hc2 := le_pyMax_of_mem (pySorted_getD_mem l hi2)
    constructor <;> [linarith; linarith]

theorem mean_bounds {l : List ℚ} (h : l ≠ []) :
    pyMin l ≤ mean l ∧ mean l ≤ pyMax l := by
  have hn : 0 < l.length := List.length_pos.mpr h
  have hn' : (0 : ℚ) < (l.length : ℚ) := by exact_mod_cast hn
  have hlow : (l.length : ℚ) * pyMin l ≤ l.sum := by
    have := List.card_nsmul_le_sum l (pyMin l) (fun x hx => pyMin_le_of_mem hx)
    rwa [nsmul_eq_mul] at this
  have hhigh : l.sum ≤ (l.length : ℚ) * pyMax l := by
    have := List.sum_le_card_nsmul l (pyMax l) (fun x hx => le_pyMax_of_mem hx)
    rwa [nsmul_eq_mul] at this
  unfold mean
  constructor
  · rw [le_div_iff₀ hn']
    linarith
  · rw [div_le_iff₀ hn']
    linarith

set_option maxHeartbeats 2000000 in
theorem quantiles_of_1234 : quantiles [1, 2, 3, 4] 4 = [5/4, 5/2, 15/4] := by
  have hs : pySorted [1, 2, 3, 4] = [1, 2, 3, 4] := by
    norm_num [pySorted, List.insertionSort, List.orderedInsert]
  have hr : List.range 3 = [0, 1, 2] := rfl
  simp only [quantiles, hs]
  norm_num [hr, List.getD, List.get?]

theorem compute_statistics_1234_p25 :
    (compute_statistics [1, 2, 3, 4]).bind Stats.p25 = some (5/4) := by
  simp only [compute_statistics, if_neg (by simp : ¬([1, 2, 3, 4] : List ℚ) = []),
    Option.bind_some]
  rw [if_pos (by simp : 4 ≤ ([1, 2, 3, 4] : List ℚ).length), quantiles_of_1234]
  simp

/-! ## Claim theorems -/

/-- C2: `compute_statistics` returns empty (`none`) on the empty sample, a
zero `stdev` with absent `p25`/`p75` on a one-element sample, and for every
sample `p25`/`p75` are present exactly when the sample has at least four
elements. -/
theorem compute_statistics_degenerate :
    compute_statistics ([] : List ℚ) = none ∧
    (∀ x : ℚ, (compute_statistics [x]).map Stats.stdev = some 0 ∧
        (compute_statistics [x]).bind Stats.p25 = none ∧
        (compute_statistics [x]).bind Stats.p75 = none) ∧
    (∀ l : List ℚ,
        (((compute_statistics l).bind Stats.p25).isSome ↔ 4 ≤ l.length) ∧
        (((compute_statistics l).bind Stats.p75).isSome ↔ 4 ≤ l.length)) := by
  refine ⟨by simp [compute_statistics], fun x => ?_, fun l => ?_⟩
  · simp [compute_statistics]
  · by_cases h : l = []
    · subst h
      simp [compute_statistics]
    · constructor <;>
        · simp only [compute_statistics, if_neg h, Option.bind_some]
          split_ifs <;> simp <;> omega

/-- C4 (counterexample): on the sample `[1,2,3,4]` the 25th percentile the
code computes is `5/4 = 1.25`, not `7/4 = 1.75`. -/
theorem p25_of_consecutive_sample_ne :
    (compute_statistics [1, 2, 3, 4]).bind Stats.p25 ≠ some (7/4) := by
  rw [compute_statistics_1234_p25]
  simp only [ne_eq, Option.some.injEq]
  norm_num

/-- C4 (amended): `compute_statistics([1,2,3,4])` returns `p25 = 1.25`, per the
exclusive four-way quantile split (`statistics.quantiles` default method) the
implementation uses. -/
theorem p25_of_consecutive_sample :
    (compute_statistics [1, 2, 3, 4]).bind Stats.p25 = some (5/4) :=
  compute_statistics_1234_p25

/-- C5: for every non-empty sample, the statistics returned by
`compute_statistics` satisfy `min ≤ median ≤ max` and `min ≤ mean ≤ max`. -/
theorem stats_min_median_mean_max_bounds :
    ∀ (l : List ℚ) (s : Stats), compute_statistics l = some s →
      s.min ≤ s.median ∧ s.median ≤ s.max ∧ s.min ≤ s.mean ∧ s.mean ≤ s.max := by
  intro l s hs
  by_cases h : l = []
  · rw [h] at hs
    simp [compute_statistics] at hs
  · unfold compute_statistics at hs
    rw [if_neg h] at hs
    injection hs with h2
    subst h2
    exact ⟨(median_bounds h).1, (median_bounds h).2, (mean_bounds h).1, (mean_bounds h).2⟩

/-- C5 (witness): instantiated on the sample `[1,2,3,4]`, whose statistics are
`min = 1`, `median = mean = 5/2`, `max = 4`. -/
theorem stats_min_median_mean_max_bounds_witness :
    (1 : ℚ) ≤ 5/2 ∧ (5/2 : ℚ) ≤ 4 := by
  have heq : compute_statistics [1, 2, 3, 4] =
      some ⟨4, 5/2, 5/2, stdev [1, 2, 3, 4], 1, 4, some (5/4), some (15/4)⟩ := by
    simp only [compute_statistics, if_neg (by simp : ¬([1, 2, 3, 4] : List ℚ) = []),
      Option.some.injEq, Stats.mk.injEq]
    refine ⟨by simp, by norm_num [mean], ?_, ?_, by norm_num [pyMin], by norm_num [pyMax], ?_, ?_⟩
    · norm_num [median, pySorted, List.insertionSort, List.orderedInsert]
    · rw [if_pos (by simp : ([1, 2, 3, 4] : List ℚ).length > 1)]
    · rw [if_pos (by simp : 4 ≤ ([1, 2, 3, 4] : List ℚ).length), quantiles_of_1234]
      simp
    · rw [if_pos (by simp : 4 ≤ ([1, 2, 3, 4] : List ℚ).length), quantiles_of_1234]
      simp
  have h := stats_min_median_mean_max_bounds [1, 2, 3, 4] _ heq
  exact ⟨h.1, h.2.2.2⟩

/-- C7 (counterexample): with `cart_cv = 0.85` and `elev_cv = 0.9`,
`compare_latency` (and the markdown report, which uses the same rule) declares
Cartesia more consistent although `0.85` is not below `0.9 * 0.9 = 0.81`. -/
theorem consistency_no_threshold_counterexample :
    compare_latency_consistency (17/20) (9/10) = ConsistencyCall.cartesiaMore ∧
    ¬((17/20 : ℚ) < (9/10) * (9/10)) := by
  constructor
  · rw [compare_latency_consistency, if_pos (by norm_num)]
  · norm_num

/-- C7 (amended): only the executive summary (`generate_summary`) applies the
10% band — it declares a provider more consistent iff its CV is strictly below
0.9 times the other's, and otherwise reports similar consistency — whereas
`compare_latency` and the markdown report declare Cartesia more consistent
whenever `cart_cv < elev_cv` and ElevenLabs otherwise, with no threshold and
no similarity verdict. -/
theorem consistency_threshold_rules :
    ∀ cart_cv elev_cv : ℚ,
      (generate_summary_consistency cart_cv elev_cv = ConsistencyCall.cartesiaMore ↔
        cart_cv < elev_cv * (9/10)) ∧
      (generate_summary_consistency cart_cv elev_cv = ConsistencyCall.elevenMore ↔
        (¬cart_cv < elev_cv * (9/10) ∧ elev_cv < cart_cv * (9/10))) ∧
      (generate_summary_consistency cart_cv elev_cv = ConsistencyCall.similar ↔
        (¬cart_cv < elev_cv * (9/10) ∧ ¬elev_cv < cart_cv * (9/10))) ∧
      (compare_latency_consistency cart_cv elev_cv = ConsistencyCall.cartesiaMore ↔
        cart_cv < elev_cv) ∧
      (compare_latency_consistency cart_cv elev_cv = ConsistencyCall.elevenMore ↔
        ¬cart_cv < elev_cv) ∧
      compare_latency_consistency cart_cv elev_cv ≠ ConsistencyCall.similar := by
  intro c e
  unfold generate_summary_consistency compare_latency_consistency
  split_ifs with h1 h2 h3 <;> simp_all

/-- C9 (counterexample): the markdown report is not a pure function of the
aggregated statistics — over the same aggregator output, two runs at
different clock times already emit different header blocks (the `Generated`
timestamp line, where the composer's `datetime.now()` read lands), so the
report texts differ. -/
theorem report_depends_on_clock_counterexample :
    report_header "2025-03-01 12:00:00" 56 ≠ report_header "2025-03-01 12:00:01" 56 := by
  decide

/-- C9 (amended): the report composer reads the system clock
(`datetime.now()`, `generate_report.py` line 30 — data other than its input)
and embeds it in the `Generated` line of the header block (lines 26-32) that
opens the report, so runs over the same aggregator output differ whenever
their clock strings do.  The header block is otherwise deterministic: at a
fixed evaluation count, two runs agree on every header line except the
`Generated` line (index 1), and their headers coincide exactly when the
clock strings agree. -/
theorem report_header_clock_dependence :
    ∀ (t₁ t₂ : String) (n : ℕ),
      (report_header t₁ n).eraseIdx 1 = (report_header t₂ n).eraseIdx 1 ∧
      (report_header t₁ n = report_header t₂ n ↔ t₁ = t₂) := by
  intro t₁ t₂ n
  refine ⟨rfl, ?_, fun h => by rw [h]⟩
  intro h
  simp only [report_header, List.cons.injEq, and_true, true_and] at h
  have h2 : ("\n**Generated:** " ++ t₁).data = ("\n**Generated:** " ++ t₂).data := by
    rw [h]
  simp only [String.data_append] at h2
  exact String.ext (List.append_cancel_left h2)

theorem sum_of_constant {c : ℚ} : ∀ {l : List ℚ}, (∀ x ∈ l, x = c) →
    l.sum = (l.length : ℚ) * c := by
  intro l
  induction l with
  | nil => simp
  | cons x xs ih =>
    intro h
    have hx : x = c := h x (List.mem_cons_self _ _)
    rw [List.sum_cons, ih (fun y hy => h y (List.mem_cons_of_mem _ hy)), hx,
      List.length_cons]
    push_cast
    ring

theorem mean_of_constant {c : ℚ} {l : List ℚ} (hl : l ≠ []) (h : ∀ x ∈ l, x = c) :
    mean l = c := by
  have hn : (0 : ℚ) < (l.length : ℚ) := by exact_mod_cast List.length_pos.mpr hl
  unfold mean
  rw [sum_of_constant h]
  field_simp

theorem centred_sq_sum_of_constant {c : ℚ} {l : List ℚ} (hl : l ≠ [])
    (hc : ∀ x ∈ l, x = c) : (l.map (fun x => (x - mean l) ^ 2)).sum = 0 := by
  have hm := mean_of_constant hl hc
  apply List.sum_eq_zero
  intro y hy
  obtain ⟨x, hx, rfl⟩ := List.mem_map.mp hy
  rw [hc x hx, hm]
  ring

/-- C3: `pearson_correlation` returns 0 for fewer than two pairs, and returns
0 whenever all x values (or all y values) coincide, i.e. one variable has zero
variance. -/
theorem pearson_correlation_degenerate :
    (∀ data : List (ℚ × ℚ), data.length < 2 → pearson_correlation data = 0) ∧
    (∀ (data : List (ℚ × ℚ)) (c : ℚ), (∀ p ∈ data, p.1 = c) →
      pearson_correlation data = 0) ∧
    (∀ (data : List (ℚ × ℚ)) (c : ℚ), (∀ p ∈ data, p.2 = c) →
      pearson_correlation data = 0) := by
  refine ⟨fun data hlen => ?_, fun data c hc => ?_, fun data c hc => ?_⟩
  · unfold pearson_correlation
    rw [if_pos hlen]
  · by_cases hlen : data.length < 2
    · unfold pearson_correlation
      rw [if_pos hlen]
    · have hne : data ≠ [] := by
        intro h
        rw [h] at hlen
        simp at hlen
      have hxne : data.map Prod.fst ≠ [] := by simpa using hne
      have hc' : ∀ x ∈ data.map Prod.fst, x = c := by
        intro x hx
        obtain ⟨p, hp, rfl⟩ := List.mem_map.mp hx
        exact hc p hp
      simp only [pearson_correlation]
      rw [if_neg hlen, if_pos (Or.inl (centred_sq_sum_of_constant hxne hc'))]
  · by_cases hlen : data.length < 2
    · unfold pearson_correlation
      rw [if_pos hlen]
    · have hne : data ≠ [] := by
        intro h
        rw [h] at hlen
        simp at hlen
      have hyne : data.map Prod.snd ≠ [] := by simpa using hne
      have hc' : ∀ y ∈ data.map Prod.snd, y = c := by
        intro y hy
        obtain ⟨p, hp, rfl⟩ := List.mem_map.mp hy
        exact hc p hp
      simp only [pearson_correlation]
      rw [if_neg hlen, if_pos (Or.inr (centred_sq_sum_of_constant hyne hc'))]

/-- C3 (witness): instantiated on the empty pairing, a constant-x pairing and
a constant-y pairing. -/
theorem pearson_correlation_degenerate_witness :
    pearson_correlation [] = 0 ∧
    pearson_correlation [((3 : ℚ), (1 : ℚ)), (3, 2)] = 0 ∧
    pearson_correlation [((1 : ℚ), (7 : ℚ)), (2, 7)] = 0 := by
  refine ⟨pearson_correlation_degenerate.1 [] (by simp),
    pearson_correlation_degenerate.2.1 _ 3 ?_,
    pearson_correlation_degenerate.2.2 _ 7 ?_⟩ <;>
    · intro p hp
      rcases List.mem_cons.mp hp with h | h
      · rw [h]
      · rw [List.mem_singleton.mp h]

/-- C1 (counterexample): a success entry whose `ttfb` key is present with
value 0 and whose `generation_time` is 5 — the claim's rule (`ttfb` if
present, else `generation_time`) resolves TTFB to 0, but the code's
`entry.get("ttfb") or entry.get("generation_time")` resolves it to 5 and
reports a 5-second sample. -/
theorem extract_latency_zero_ttfb_counterexample :
    pyOr (LogEntry.ttfb ⟨"E01", "success", some 0, none, some 5⟩)
        (LogEntry.generation_time ⟨"E01", "success", some 0, none, some 5⟩) = some 5 ∧
    specResolvedTtfb ⟨"E01", "success", some 0, none, some 5⟩ = some 0 ∧
    (extract_latency_data [⟨"E01", "success", some 0, none, some 5⟩]).1 = [5] := by
  refine ⟨?_, rfl, ?_⟩
  · simp [pyOr]
  · simp [extract_latency_data, pyOr, truthy]

theorem pyOr_eq_orElse {a b : Option ℚ} (ha : a ≠ some 0) :
    pyOr a b = a.orElse fun _ => b := by
  cases a with
  | none => rfl
  | some v =>
    have hv : v ≠ 0 := by simpa using ha
    simp [pyOr, hv, Option.orElse]

/-- C1 (amended): the code resolves TTFB (resp. total time) as `ttfb` (resp.
`total_time`) when present and nonzero, else `generation_time` when present
and nonzero, else the entry contributes no sample; when no present timing
value is zero this agrees with the spec's present/absent rule, and an entry
carrying none of the timing fields is skipped while the remaining entries are
still processed. -/
theorem extract_latency_resolution :
    (∀ e : LogEntry, e.ttfb ≠ some 0 → e.generation_time ≠ some 0 →
      pyOr e.ttfb e.generation_time = specResolvedTtfb e) ∧
    (∀ e : LogEntry, e.total_time ≠ some 0 → e.generation_time ≠ some 0 →
      pyOr e.total_time e.generation_time = specResolvedTotal e) ∧
    (∀ (e : LogEntry) (entries : List LogEntry),
      e.ttfb = none → e.total_time = none → e.generation_time = none →
      extract_latency_data (e :: entries) = extract_latency_data entries) := by
  refine ⟨fun e h1 h2 => pyOr_eq_orElse h1, fun e h1 h2 => pyOr_eq_orElse h1,
    fun e entries h1 h2 h3 => ?_⟩
  · unfold extract_latency_data
    rw [List.foldl_cons]
    congr 1
    split_ifs with hstat
    · simp [pyOr, truthy, h1, h2, h3]
    · rfl

/-- C1 (witness): the resolution-rule agreement instantiated on an entry with
`ttfb = 2`, `total_time = 3`, and the skip rule on a success entry with no
timing fields at all. -/
theorem extract_latency_resolution_witness :
    pyOr (some 2) none = specResolvedTtfb ⟨"E01", "success", some 2, some 3, none⟩ ∧
    pyOr (some 3) none = specResolvedTotal ⟨"E01", "success", some 2, some 3, none⟩ ∧
    extract_latency_data [⟨"E02", "success", none, none, none⟩] = ([], []) := by
  refine ⟨extract_latency_resolution.1 ⟨"E01", "success", some 2, some 3, none⟩
      (by simp) (by simp),
    extract_latency_resolution.2.1 ⟨"E01", "success", some 2, some 3, none⟩
      (by simp) (by simp), ?_⟩
  rw [extract_latency_resolution.2.2 ⟨"E02", "success", none, none, none⟩ [] rfl rfl rfl]
  rfl

theorem tallyWins_aux (es : List Evaluation) : ∀ w : ℕ × ℕ × ℕ,
    es.foldl (fun w e =>
      match e.winner with
      | .cartesia => (w.1 + 1, w.2.1, w.2.2)
      | .elevenLabs => (w.1, w.2.1 + 1, w.2.2)
      | .tie => (w.1, w.2.1, w.2.2 + 1)) w =
    (w.1 + es.countP (fun e => e.winner = PyWinner.cartesia),
     w.2.1 + es.countP (fun e => e.winner = PyWinner.elevenLabs),
     w.2.2 + es.countP (fun e => e.winner = PyWinner.tie)) := by
  induction es with
  | nil => intro w; simp
  | cons e tail ih =>
    intro w
    rw [List.foldl_cons]
    cases hw : e.winner <;> simp [hw, ih, List.countP_cons] <;> omega

theorem tallyWins_eq (evals : List Evaluation) :
    tallyWins evals = (evals.countP (fun e => e.winner = PyWinner.cartesia),
      evals.countP (fun e => e.winner = PyWinner.elevenLabs),
      evals.countP (fun e => e.winner = PyWinner.tie)) := by
  simpa using tallyWins_aux evals (0, 0, 0)

/-- C6: the reported category winner is decided by majority of the stored
`comparison.winner` tallies, not by comparing mean scores — and on a concrete
category where Cartesia has the higher mean `average_score` but ElevenLabs
more per-test wins, the reported winner is ElevenLabs. -/
theorem category_winner_by_tally :
    (∀ evals : List Evaluation,
      category_winner evals =
        if evals.countP (fun e => e.winner = PyWinner.cartesia) >
            evals.countP (fun e => e.winner = PyWinner.elevenLabs) then PyWinner.cartesia
        else if evals.countP (fun e => e.winner = PyWinner.elevenLabs) >
            evals.countP (fun e => e.winner = PyWinner.cartesia) then PyWinner.elevenLabs
        else PyWinner.tie) ∧
    mean (divergentCategory.map Evaluation.cartesiaAvg) >
      mean (divergentCategory.map Evaluation.elevenAvg) ∧
    category_winner divergentCategory = PyWinner.elevenLabs := by
  refine ⟨fun evals => ?_, ?_, ?_⟩
  · unfold category_winner
    rw [tallyWins_eq]
  · norm_num [mean, divergentCategory]
  · decide

theorem load_generation_logs_aux {α : Type} (e : String) :
    ∀ (pre : List (Except String α)) (rest : List (Except String α)),
      (∀ f ∈ pre, f.isOk = true) → ∀ logs : List α,
      (pre ++ Except.error e :: rest).foldlM
        (fun logs f => do
          let log ← f
          pure (logs ++ [log])) logs = Except.error e := by
  intro pre
  induction pre with
  | nil => intro rest _ logs; rfl
  | cons f pre ih =>
    intro rest hp logs
    obtain ⟨a, rfl⟩ : ∃ a, f = Except.ok a := by
      cases f with
      | ok a => exact ⟨a, rfl⟩
      | error err =>
        have := hp (Except.error err) (List.mem_cons_self _ _)
        simp [Except.isOk, Except.toBool] at this
    exact ih rest (fun g hg => hp g (List.mem_cons_of_mem _ hg)) (logs ++ [a])

/-- C8 (counterexample): an unreadable/invalid generation-log file is not
skipped — loading aborts with that error and the later good file is never
processed; likewise one evaluation record holding an unexpected
`comparison.winner` value aborts the head-to-head tally with a `KeyError`. -/
theorem load_data_abort_counterexample :
    load_generation_logs
        [Except.ok (1 : ℕ), Except.error "generation_log_002.json: Expecting value",
          Except.ok 2] =
      Except.error "generation_log_002.json: Expecting value" ∧
    load_generation_logs
        [Except.ok (1 : ℕ), Except.error "generation_log_002.json: Expecting value",
          Except.ok 2] ≠
      Except.ok [1, 2] ∧
    overall_wins ["Cartesia", "Draw"] = Except.error "KeyError: Draw" := by
  refine ⟨rfl, ?_, rfl⟩
  intro h
  rw [show load_generation_logs
      [Except.ok (1 : ℕ), Except.error "generation_log_002.json: Expecting value",
        Except.ok 2] =
      Except.error "generation_log_002.json: Expecting value" from rfl] at h
  exact Except.noConfusion h

/-- C8 (amended): exceptions do escape the batch run — the first structurally
bad input file aborts `load_data` with that file's error (nothing is skipped,
later files are not processed), and a record holding an unexpected
`comparison.winner` value aborts the tally with a `KeyError` rather than being
caught. -/
theorem load_data_error_propagates :
    (∀ (α : Type) (pre : List (Except String α)) (e : String)
        (rest : List (Except String α)),
      (∀ f ∈ pre, f.isOk = true) →
      load_generation_logs (pre ++ Except.error e :: rest) = Except.error e) ∧
    (∀ winner : String, winner ≠ "Cartesia" → winner ≠ "Eleven Labs" → winner ≠ "Tie" →
      overall_wins [winner] = Except.error ("KeyError: " ++ winner)) := by
  constructor
  · intro α pre e rest hp
    exact load_generation_logs_aux e pre rest hp []
  · intro w h1 h2 h3
    unfold overall_wins
    show (if w = "Cartesia" then _ else _) >>= _ = _
    rw [if_neg h1, if_neg h2, if_neg h3]
    rfl

/-- C8 (witness): instantiated on one good file followed by an invalid one and
another good one, and on the winner string `"Draw"`. -/
theorem load_data_error_propagates_witness :
    load_generation_logs [Except.ok (1 : ℕ), Except.error "invalid JSON", Except.ok 2] =
      Except.error "invalid JSON" ∧
    overall_wins ["Draw"] = Except.error "KeyError: Draw" := by
  constructor
  · exact load_data_error_propagates.1 ℕ [Except.ok 1] "invalid JSON" [Except.ok 2]
      (by simp [Except.isOk, Except.toBool])
  · have h := load_data_error_propagates.2 "Draw" (by decide) (by decide) (by decide)
    simpa using h

theorem sum_map_eq_finsum (l : List (ℚ × ℚ)) (f : ℚ × ℚ → ℚ) :
    (l.map f).sum = ∑ i : Fin l.length, f (l.get i) := by
  conv_lhs => rw [← List.ofFn_get l]
  rw [List.map_ofFn, List.sum_ofFn]
  rfl

theorem centred_sq_sum_nonneg (l : List ℚ) (m : ℚ) :
    0 ≤ (l.map (fun x => (x - m) ^ 2)).sum :=
  List.sum_nonneg fun x hx => by
    obtain ⟨y, _, rfl⟩ := List.mem_map.mp hx
    positivity

theorem list_cauchy_schwarz (data : List (ℚ × ℚ)) (mx my : ℚ) :
    ((data.map (fun p => (p.1 - mx) * (p.2 - my))).sum) ^ 2 ≤
      ((data.map Prod.fst).map (fun x => (x - mx) ^ 2)).sum *
        ((data.map Prod.snd).map (fun y => (y - my) ^ 2)).sum := by
  have hnum : (data.map (fun p => (p.1 - mx) * (p.2 - my))).sum =
      ∑ i : Fin data.length, ((data.get i).1 - mx) * ((data.get i).2 - my) :=
    sum_map_eq_finsum data _
  have hdx : ((data.map Prod.fst).map (fun x => (x - mx) ^ 2)).sum =
      ∑ i : Fin data.length, ((data.get i).1 - mx) ^ 2 := by
    rw [List.map_map]
    exact sum_map_eq_finsum data _
  have hdy : ((data.map Prod.snd).map (fun y => (y - my) ^ 2)).sum =
      ∑ i : Fin data.length, ((data.get i).2 - my) ^ 2 := by
    rw [List.map_map]
    exact sum_map_eq_finsum data _
  rw [hnum, hdx, hdy]
  exact Finset.sum_mul_sq_le_sq_mul_sq Finset.univ
    (fun i => (data.get i).1 - mx) (fun i => (data.get i).2 - my)

theorem div_sqrt_abs_le_one {num dx dy : ℚ} (hdx : 0 < dx) (hdy : 0 < dy)
    (hcs : num ^ 2 ≤ dx * dy) :
    |(num : ℝ) / Real.sqrt ((dx : ℝ) * (dy : ℝ))| ≤ 1 := by
  have hprod : (0 : ℝ) < (dx : ℝ) * (dy : ℝ) := by positivity
  have hsqrt : 0 < Real.sqrt ((dx : ℝ) * (dy : ℝ)) := Real.sqrt_pos.mpr hprod
  rw [abs_div, abs_of_pos hsqrt, div_le_one hsqrt]
  have h1 : ((num : ℝ)) ^ 2 ≤ (dx : ℝ) * (dy : ℝ) := by exact_mod_cast hcs
  calc |(num : ℝ)| = Real.sqrt (((num : ℝ)) ^ 2) := (Real.sqrt_sq_eq_abs _).symm
    _ ≤ Real.sqrt ((dx : ℝ) * (dy : ℝ)) := Real.sqrt_le_sqrt h1

/-- C10: for every input pair list, the value of `pearson_correlation` lies
in the closed interval `[-1, 1]` (Cauchy–Schwarz in the non-degenerate case;
the degenerate branches return 0). -/
theorem pearson_correlation_in_unit_interval :
    ∀ data : List (ℚ × ℚ),
      -1 ≤ pearson_correlation data ∧ pearson_correlation data ≤ 1 := by
  intro data
  have habs : |pearson_correlation data| ≤ 1 := by
    simp only [pearson_correlation]
    split_ifs with h1 h2
    · simp
    · simp
    · push_neg at h2
      obtain ⟨hdx, hdy⟩ := h2
      have hdx0 : 0 < ((data.map Prod.fst).map
          (fun x => (x - mean (data.map Prod.fst)) ^ 2)).sum :=
        lt_of_le_of_ne (centred_sq_sum_nonneg _ _) (Ne.symm hdx)
      have hdy0 : 0 < ((data.map Prod.snd).map
          (fun y => (y - mean (data.map Prod.snd)) ^ 2)).sum :=
        lt_of_le_of_ne (centred_sq_sum_nonneg _ _) (Ne.symm hdy)
      exact div_sqrt_abs_le_one hdx0 hdy0
        (list_cauchy_schwarz data (mean (data.map Prod.fst)) (mean (data.map Prod.snd)))
  exact abs_le.mp habs

end TTSEval
